import Mathlib

/-!
Verification of the Z.AI provider configuration layer: model-alias
resolution, credential resolution, tool-list merging, custom-tools-only
policy normalization, MCP-server assembly, provider wrapping and the
forced custom-tool helper, embedded shallowly from the TypeScript source.
-/

namespace ZaiProvider

/-! ## Model aliases and mappings -/

inductive ClaudeModelAlias
  | sonnet
  | opus
  | haiku
deriving DecidableEq, Repr

/-- The recognized alias names, in `CLAUDE_ALIASES` insertion order. -/
def CLAUDE_ALIASES : List String := ["sonnet", "opus", "haiku"]

def aliasName : ClaudeModelAlias → String
  | .sonnet => "sonnet"
  | .opus => "opus"
  | .haiku => "haiku"

/-- `CLAUDE_ALIASES.has(requestedId)` followed by the cast to the alias type. -/
def parseAlias? (s : String) : Option ClaudeModelAlias :=
  if s = "sonnet" then some .sonnet
  else if s = "opus" then some .opus
  else if s = "haiku" then some .haiku
  else none

/-- `Record<ClaudeModelAlias, string>`: a total mapping from the three
aliases to vendor model identifiers. -/
structure ModelMappings where
  sonnet : String
  opus : String
  haiku : String
deriving DecidableEq, Repr

def DEFAULT_MODEL_MAPPINGS : ModelMappings :=
  ⟨"glm-4.6", "glm-4.6", "glm-4.5-air"⟩

/-- `Partial<Record<ClaudeModelAlias, string>>`: the user override table. -/
structure PartialModelMappings where
  sonnet : Option String
  opus : Option String
  haiku : Option String
deriving DecidableEq, Repr

/-- The spread `{ ...DEFAULT_MODEL_MAPPINGS, ...options.modelMappings }`:
user values win per key; key insertion order is unchanged. -/
def overlayMappings (base : ModelMappings) (user : PartialModelMappings) : ModelMappings :=
  ⟨user.sonnet.getD base.sonnet, user.opus.getD base.opus, user.haiku.getD base.haiku⟩

/-- `Object.entries(mappings)` in insertion order (sonnet, opus, haiku). -/
def ModelMappings.entries (m : ModelMappings) : List (ClaudeModelAlias × String) :=
  [(.sonnet, m.sonnet), (.opus, m.opus), (.haiku, m.haiku)]

def lookupAliasMapping (m : ModelMappings) : ClaudeModelAlias → String
  | .sonnet => m.sonnet
  | .opus => m.opus
  | .haiku => m.haiku

def unsupportedModelMessage (requestedId : String) : String :=
  "Unsupported model \"" ++ requestedId ++ "\". Use one of " ++
    String.intercalate ", " CLAUDE_ALIASES ++ " or provide a matching entry via modelMappings."

/-- `resolveModelId`: identity short-circuit on alias names, otherwise a scan
of the mapping entries in insertion order for a matching vendor identifier,
otherwise the unsupported-model error. -/
def resolveModelId (requestedId : String) (mappings : ModelMappings) :
    Except String ClaudeModelAlias :=
  match parseAlias? requestedId with
  | some a => Except.ok a
  | none =>
    match mappings.entries.find? (fun e => e.2 = requestedId) with
    | some e => Except.ok e.1
    | none => Except.error (unsupportedModelMessage requestedId)

/-- The first alias, in table iteration order, whose mapped identifier is `id`. -/
def firstAliasMappedTo (m : ModelMappings) (id : String) : Option ClaudeModelAlias :=
  (m.entries.find? (fun e => e.2 = id)).map Prod.fst

theorem parseAlias?_aliasName (a : ClaudeModelAlias) : parseAlias? (aliasName a) = some a := by
  cases a <;> rfl

theorem mem_entries_lookup (m : ModelMappings) (a : ClaudeModelAlias) :
    (a, lookupAliasMapping m a) ∈ m.entries := by
  cases a <;> simp [ModelMappings.entries, lookupAliasMapping]

/-- The effective table built from the defaults and a user override of the
sonnet mapping to the string "opus", which is itself an alias name. -/
def collisionMappings : ModelMappings :=
  overlayMappings DEFAULT_MODEL_MAPPINGS ⟨some "opus", none, none⟩

/-- C1 counterexample: in the effective table where the user remaps `sonnet`
to the vendor identifier `"opus"`, the alias `sonnet` maps to `"opus"` and is
the first (and only) alias mapping to it, yet `resolveModelId` on `"opus"`
returns `opus` via the identity short-circuit, not `sonnet`; no two distinct
aliases map to `"opus"`, so the claim's collision escape clause does not
apply. -/
theorem resolveModelId_alias_collision_counterexample :
    lookupAliasMapping collisionMappings .sonnet = "opus" ∧
    firstAliasMappedTo collisionMappings "opus" = some .sonnet ∧
    (∀ a : ClaudeModelAlias, lookupAliasMapping collisionMappings a = "opus" → a = .sonnet) ∧
    resolveModelId "opus" collisionMappings = Except.ok .opus ∧
    ClaudeModelAlias.opus ≠ ClaudeModelAlias.sonnet := by
  refine ⟨rfl, by decide, ?_, rfl, by decide⟩
  intro a
  cases a <;> decide

/-- C1 (amended): over any effective table (built-in defaults overlaid with
user overrides), `resolveModelId` returns every alias name unchanged, and for
every alias `a` whose mapped vendor identifier `m` is not itself an alias
name, `resolveModelId m` returns the first alias in table iteration order
that maps to `m` (which is `a` itself when no distinct alias shares the
mapping). When `m` is itself an alias name, the identity short-circuit
returns `m` instead. -/
theorem resolveModelId_left_inverse (user : PartialModelMappings) (a : ClaudeModelAlias)
    (hna : parseAlias? (lookupAliasMapping (overlayMappings DEFAULT_MODEL_MAPPINGS user) a)
      = none) :
    resolveModelId (aliasName a) (overlayMappings DEFAULT_MODEL_MAPPINGS user) = Except.ok a ∧
    ∃ first : ClaudeModelAlias,
      firstAliasMappedTo (overlayMappings DEFAULT_MODEL_MAPPINGS user)
          (lookupAliasMapping (overlayMappings DEFAULT_MODEL_MAPPINGS user) a) = some first ∧
      resolveModelId (lookupAliasMapping (overlayMappings DEFAULT_MODEL_MAPPINGS user) a)
          (overlayMappings DEFAULT_MODEL_MAPPINGS user) = Except.ok first := by
  set t := overlayMappings DEFAULT_MODEL_MAPPINGS user with ht
  set m := lookupAliasMapping t a with hm
  constructor
  · simp [resolveModelId, parseAlias?_aliasName]
  · have hmem : (a, m) ∈ t.entries := mem_entries_lookup t a
    rcases hfind : t.entries.find? (fun e => e.2 = m) with _ | e
    · exfalso
      have := List.find?_eq_none.mp hfind (a, m) hmem
      simp at this
    · exact ⟨e.1, by simp [firstAliasMappedTo, hfind], by simp [resolveModelId, hna, hfind]⟩

/-- C1 witness: with no user overrides, the sonnet mapping `"glm-4.6"` is not
an alias name, and the theorem instantiates to concrete resolutions. -/
theorem resolveModelId_left_inverse_witness :
    resolveModelId (aliasName .sonnet) (overlayMappings DEFAULT_MODEL_MAPPINGS ⟨none, none, none⟩)
        = Except.ok .sonnet ∧
    ∃ first : ClaudeModelAlias,
      firstAliasMappedTo (overlayMappings DEFAULT_MODEL_MAPPINGS ⟨none, none, none⟩)
          (lookupAliasMapping (overlayMappings DEFAULT_MODEL_MAPPINGS ⟨none, none, none⟩) .sonnet)
          = some first ∧
      resolveModelId
          (lookupAliasMapping (overlayMappings DEFAULT_MODEL_MAPPINGS ⟨none, none, none⟩) .sonnet)
          (overlayMappings DEFAULT_MODEL_MAPPINGS ⟨none, none, none⟩) = Except.ok first :=
  resolveModelId_left_inverse ⟨none, none, none⟩ .sonnet (by decide)

/-- C2: `resolveModelId` produces the unsupported-model error exactly when the
requested identifier is neither a recognized alias name nor a mapped vendor
identifier of the table; every error it produces is that message; and the
message quotes the requested identifier and enumerates the recognized alias
set. -/
theorem resolveModelId_unsupported_error_iff (t : ModelMappings) (id : String) :
    (resolveModelId id t = Except.error (unsupportedModelMessage id) ↔
      (parseAlias? id = none ∧ ∀ a : ClaudeModelAlias, lookupAliasMapping t a ≠ id)) ∧
    (∀ e, resolveModelId id t = Except.error e → e = unsupportedModelMessage id) ∧
    unsupportedModelMessage id =
      "Unsupported model \"" ++ id ++ "\". Use one of " ++ "sonnet, opus, haiku" ++
        " or provide a matching entry via modelMappings." := by
  have hlit : String.intercalate ", " CLAUDE_ALIASES = "sonnet, opus, haiku" := by decide
  refine ⟨⟨?_, ?_⟩, ?_, by rw [unsupportedModelMessage, hlit]⟩
  · intro herr
    rcases hp : parseAlias? id with _ | a
    · refine ⟨rfl, ?_⟩
      intro a ha
      rcases hfind : t.entries.find? (fun e => e.2 = id) with _ | e
      · have := List.find?_eq_none.mp hfind (a, lookupAliasMapping t a) (mem_entries_lookup t a)
        simp [ha] at this
      · simp [resolveModelId, hp, hfind] at herr
    · simp [resolveModelId, hp] at herr
  · rintro ⟨hp, hnomap⟩
    rcases hfind : t.entries.find? (fun e => e.2 = id) with _ | e
    · simp [resolveModelId, hp, hfind]
    · exfalso
      have hmem := List.find?_some hfind
      have hin := List.mem_of_find?_eq_some hfind
      have : lookupAliasMapping t e.1 = id := by
        have he : e ∈ t.entries := hin
        rcases e with ⟨a, v⟩
        cases a <;> simp_all [ModelMappings.entries, lookupAliasMapping]
      exact hnomap e.1 this
  · intro e herr
    rcases hp : parseAlias? id with _ | a
    · rcases hfind : t.entries.find? (fun e => e.2 = id) with _ | x
      · simp [resolveModelId, hp, hfind] at herr
        exact herr.symm
      · simp [resolveModelId, hp, hfind] at herr
    · simp [resolveModelId, hp] at herr

/-- C2 witness: a concrete identifier absent from both directions produces the
unsupported-model error with the documented message. -/
theorem resolveModelId_unsupported_error_witness :
    resolveModelId "gpt-4o" DEFAULT_MODEL_MAPPINGS
      = Except.error (unsupportedModelMessage "gpt-4o") :=
  (resolveModelId_unsupported_error_iff DEFAULT_MODEL_MAPPINGS "gpt-4o").1.mpr
    ⟨by decide, fun a => by cases a <;> decide⟩

/-! ## Tool-list merging -/

/-- `mergeAllowedTools`: copy the defaults, then append each user entry that
is truthy and not already contained; return `undefined` for an empty result.
The loop body is only entered when the user list is present and non-empty. -/
def mergeAllowedTools (defaults : List String) (user : Option (List String)) :
    Option (List String) :=
  let merged :=
    match user with
    | some u =>
      if u.isEmpty then defaults
      else u.foldl (fun acc tool => if tool = "" ∨ tool ∈ acc then acc else acc ++ [tool]) defaults
    | none => defaults
  if merged.isEmpty then none else some merged

/-- `mergeStringLists`: a second routine with the same body, used for
disallowed tools and other string lists. -/
def mergeStringLists (defaults : List String) (user : Option (List String)) :
    Option (List String) :=
  let merged :=
    match user with
    | some u =>
      if u.isEmpty then defaults
      else u.foldl (fun acc tool => if tool = "" ∨ tool ∈ acc then acc else acc ++ [tool]) defaults
    | none => defaults
  if merged.isEmpty then none else some merged

theorem dedup_foldl_spec (u : List String) : ∀ acc : List String,
    ∃ e : List String,
      u.foldl (fun acc tool => if tool = "" ∨ tool ∈ acc then acc else acc ++ [tool]) acc
        = acc ++ e ∧
      e.Sublist u ∧
      (∀ x ∈ e, x ≠ "" ∧ x ∉ acc) ∧
      e.Nodup ∧
      (∀ x ∈ u, x ≠ "" → x ∈ acc ++ e) := by
  induction u with
  | nil =>
    intro acc
    exact ⟨[], by simp, by simp, by simp, by simp, by simp⟩
  | cons t ts ih =>
    intro acc
    by_cases h : t = "" ∨ t ∈ acc
    · obtain ⟨e, he, hsub, hprop, hnd, hcompl⟩ := ih acc
      refine ⟨e, ?_, hsub.cons t, hprop, hnd, ?_⟩
      · simpa [if_pos h] using he
      · intro x hx hne
        rcases List.mem_cons.mp hx with rfl | hx'
        · rcases h with h1 | h2
          · exact absurd h1 hne
          · exact List.mem_append_left e h2
        · exact hcompl x hx' hne
    · have ht1 : t ≠ "" := fun hh => h (Or.inl hh)
      have ht2 : t ∉ acc := fun hh => h (Or.inr hh)
      obtain ⟨e, he, hsub, hprop, hnd, hcompl⟩ := ih (acc ++ [t])
      refine ⟨t :: e, ?_, hsub.cons₂ t, ?_, ?_, ?_⟩
      · rw [List.foldl_cons, if_neg h, he, List.append_assoc]
        rfl
      · intro x hx
        rcases List.mem_cons.mp hx with rfl | hx'
        · exact ⟨ht1, ht2⟩
        · have := hprop x hx'
          exact ⟨this.1, fun hmem => this.2 (List.mem_append_left [t] hmem)⟩
      · refine List.nodup_cons.mpr ⟨?_, hnd⟩
        intro hte
        exact (hprop t hte).2 (List.mem_append_right acc (List.mem_singleton.mpr rfl))
      · intro x hx hne
        rcases List.mem_cons.mp hx with rfl | hx'
        · exact List.mem_append_right acc (List.mem_cons_self x e)
        · have := hcompl x hx' hne
          simpa [List.append_assoc] using this

theorem mergeAllowedTools_core (d : List String) (user : Option (List String)) :
    ∃ e : List String,
      mergeAllowedTools d user = (if (d ++ e).isEmpty then none else some (d ++ e)) ∧
      e.Sublist (user.getD []) ∧
      (∀ x ∈ e, x ≠ "" ∧ x ∉ d) ∧
      e.Nodup ∧
      (∀ x ∈ user.getD [], x ≠ "" → x ∈ d ++ e) := by
  match user with
  | none => exact ⟨[], by simp [mergeAllowedTools], by simp, by simp, by simp, by simp⟩
  | some u =>
    by_cases hu : u.isEmpty
    · have hu' : u = [] := List.isEmpty_iff.mp hu
      subst hu'
      exact ⟨[], by simp [mergeAllowedTools], by simp, by simp, by simp, by simp⟩
    · obtain ⟨e, he, hsub, hprop, hnd, hcompl⟩ := dedup_foldl_spec u d
      refine ⟨e, ?_, by simpa using hsub, hprop, hnd, by simpa using hcompl⟩
      simp only [mergeAllowedTools, hu, if_false, Bool.false_eq_true]
      rw [he]

/-- C3 counterexample: with a defaults list that itself contains a duplicate
and no user list, the merge returns the defaults verbatim, so an element
appears twice in the result, refuting the no-duplicates clause as stated. -/
theorem mergeAllowedTools_duplicate_defaults_counterexample :
    mergeAllowedTools ["a", "a"] none = some ["a", "a"] ∧
    ¬ (["a", "a"] : List String).Nodup ∧
    (["a", "a"] : List String).count "a" = 2 := by
  decide

/-- C3 (amended): the merged tool list preserves the defaults' order first,
then appends exactly the user entries that are non-empty and not already
present, in the user list's relative order; every element comes from the
defaults or the user list; the result is `none` rather than an empty list
exactly when the defaults are empty and every user entry is empty; and no
element appears twice provided the defaults list itself has no duplicates
(duplicates already inside the defaults are preserved verbatim). -/
theorem mergeAllowedTools_merge_spec (d : List String) (user : Option (List String)) :
    (mergeAllowedTools d user ≠ some []) ∧
    (mergeAllowedTools d user = none ↔ (d = [] ∧ ∀ x ∈ user.getD [], x = "")) ∧
    ∀ l, mergeAllowedTools d user = some l →
      d <+: l ∧
      (l.drop d.length).Sublist (user.getD []) ∧
      (∀ x ∈ l.drop d.length, x ≠ "" ∧ x ∉ d) ∧
      (∀ x ∈ l, x ∈ d ∨ x ∈ user.getD []) ∧
      (∀ x ∈ user.getD [], x ≠ "" → x ∈ l) ∧
      (d.Nodup → l.Nodup) := by
  obtain ⟨e, heq, hsub, hprop, hnd, hcompl⟩ := mergeAllowedTools_core d user
  by_cases hde : (d ++ e).isEmpty
  · rw [if_pos hde] at heq
    have hde' : d = [] ∧ e = [] := by
      have := List.isEmpty_iff.mp hde
      exact List.append_eq_nil.mp this
    refine ⟨by simp [heq], ?_, ?_⟩
    · rw [heq]
      simp only [true_iff, hde'.1, true_and]
      intro x hx
      by_contra hne
      have := hcompl x hx hne
      rw [hde'.1, hde'.2] at this
      simp at this
    · intro l hl
      rw [heq] at hl
      exact absurd hl (by simp)
  · rw [if_neg hde] at heq
    refine ⟨?_, ?_, ?_⟩
    · rw [heq]
      intro hcontra
      have : d ++ e = [] := by injection hcontra
      rw [this] at hde
      simp at hde
    · rw [heq]
      constructor
      · intro hcontra
        exact absurd hcontra (by simp)
      · rintro ⟨hd0, hall⟩
        exfalso
        have he0 : e = [] := by
          by_contra hne
          obtain ⟨x, hx⟩ := List.exists_mem_of_ne_nil e hne
          have hxu : x ∈ user.getD [] := hsub.subset hx
          exact (hprop x hx).1 (hall x hxu)
        rw [hd0, he0] at hde
        simp at hde
    · intro l hl
      rw [heq] at hl
      have hl' : l = d ++ e := by injection hl with h; exact h.symm
      subst hl'
      refine ⟨List.prefix_append d e, ?_, ?_, ?_, hcompl, ?_⟩
      · rw [List.drop_left]
        exact hsub
      · rw [List.drop_left]
        exact hprop
      · intro x hx
        rcases List.mem_append.mp hx with hxd | hxe
        · exact Or.inl hxd
        · exact Or.inr (hsub.subset hxe)
      · intro hdnodup
        exact hdnodup.append hnd (fun a had hae => (hprop a hae).2 had)

/-- C3 witness: merging `["Read"]` with the user list `["", "Write"]` yields
`["Read", "Write"]`; the defaults are a prefix and the result has no
duplicates. -/
theorem mergeAllowedTools_merge_spec_witness :
    (["Read"] : List String) <+: ["Read", "Write"] ∧
    (["Read", "Write"] : List String).Nodup :=
  have h := (mergeAllowedTools_merge_spec ["Read"] (some ["", "Write"])).2.2
    ["Read", "Write"] (by decide)
  ⟨h.1, h.2.2.2.2.2 (by decide)⟩

/-- C8: the two de-duplicating merge routines `mergeAllowedTools` and
`mergeStringLists` compute extensionally the same function: for every
defaults list and optional user list they return equal results. -/
theorem mergeAllowedTools_eq_mergeStringLists :
    ∀ (d : List String) (user : Option (List String)),
      mergeAllowedTools d user = mergeStringLists d user :=
  fun _ _ => rfl

theorem mergeStringLists_nodup (d : List String) (hd : d.Nodup) (u : Option (List String)) :
    ∀ l, mergeStringLists d u = some l → l.Nodup := by
  intro l hl
  obtain ⟨e, heq, _, hprop, hnd, _⟩ := mergeAllowedTools_core d u
  have hl' : mergeStringLists d u = (if (d ++ e).isEmpty then none else some (d ++ e)) := heq
  rw [hl'] at hl
  by_cases hde : (d ++ e).isEmpty
  · rw [if_pos hde] at hl
    exact absurd hl (by simp)
  · rw [if_neg hde] at hl
    have : l = d ++ e := by injection hl with h; exact h.symm
    subst this
    exact hd.append hnd (fun a had hae => (hprop a hae).2 had)

theorem mergeStringLists_getD_nodup (d : List String) (hd : d.Nodup)
    (u : Option (List String)) : ((mergeStringLists d u).getD []).Nodup := by
  rcases h : mergeStringLists d u with _ | l
  · simp
  · simpa using mergeStringLists_nodup d hd u l h

/-! ## Settings assembly: custom-tools-only policy, credentials, tool lists -/

def DEFAULT_CUSTOM_TOOLS_DISALLOWED : List String := ["Bash(*)", "Task(*)"]

def CORE_ALLOWED_TOOLS : List String :=
  ["Bash", "Read", "Write", "Edit", "LS", "Grep", "Glob", "TodoRead", "TodoWrite"]

def WEB_SEARCH_ALLOWED_TOOLS : List String := ["mcp__web-search-prime__webSearchPrime"]

def WEB_READER_ALLOWED_TOOLS : List String := ["mcp__web-reader__webReader", "WebFetch"]

def VISION_ALLOWED_TOOLS : List String :=
  ["mcp__zai-vision__image_analysis", "mcp__zai-vision__video_analysis",
   "mcp__zai-vision__analyze_image", "mcp__zai-vision__analyze_video"]

structure CustomToolsOnlyOptions where
  systemPrompt : Option String
  appendSystemPrompt : Option String
  allowedTools : Option (List String)
  disallowedTools : Option (List String)
deriving DecidableEq, Repr

/-- `customToolsOnly?: boolean | CustomToolsOnlyOptions`, with `undefined`. -/
inductive CustomToolsOnlyInput
  | undef
  | bool (b : Bool)
  | opts (o : CustomToolsOnlyOptions)
deriving DecidableEq, Repr

structure NormalizedCustomToolsOnlyOptions where
  enabled : Bool
  allowedTools : List String
  disallowedTools : List String
  systemPrompt : Option String
  appendSystemPrompt : Option String
deriving DecidableEq, Repr

/-- `normalizeCustomToolsOnlyOptions`: falsy input disables the mode; `true`
behaves as an empty options object; otherwise the supplied options are
normalized, with the fixed always-blocked pair merged before any extras. -/
def normalizeCustomToolsOnlyOptions : CustomToolsOnlyInput → NormalizedCustomToolsOnlyOptions
  | .undef => ⟨false, [], [], none, none⟩
  | .bool false => ⟨false, [], [], none, none⟩
  | .bool true =>
    ⟨true, [], (mergeStringLists DEFAULT_CUSTOM_TOOLS_DISALLOWED none).getD [], none, none⟩
  | .opts o =>
    ⟨true, o.allowedTools.getD [],
      (mergeStringLists DEFAULT_CUSTOM_TOOLS_DISALLOWED o.disallowedTools).getD [],
      o.systemPrompt, o.appendSystemPrompt⟩

/-- `McpServerConfig`: either a remote http descriptor (url plus the
Authorization header value) or a stdio descriptor (command, args, env). -/
inductive McpServerDescriptor
  | http (url : String) (authorizationHeader : String)
  | stdio (command : String) (args : List String) (env : List (String × Option String))
deriving DecidableEq, Repr

structure VisionCommand where
  command : String
  args : Option (List String)
  env : Option (List (String × Option String))
deriving DecidableEq, Repr

/-- `options.defaultSettings ?? {}` — the slice of `ClaudeCodeSettings` the
resolver reads. -/
structure UserDefaults where
  allowedTools : Option (List String)
  disallowedTools : Option (List String)
  systemPrompt : Option String
  appendSystemPrompt : Option String
  mcpServers : Option (List (String × McpServerDescriptor))
deriving DecidableEq, Repr

structure CreateZaiClaudeCodeOptions where
  apiKey : Option String
  modelMappings : PartialModelMappings
  includeDefaultAllowedTools : Option Bool
  enableWebSearchMcp : Option Bool
  enableWebReaderMcp : Option Bool
  enableVisionMcp : Option Bool
  visionCommand : Option VisionCommand
  customToolsOnly : CustomToolsOnlyInput
  defaultSettings : Option UserDefaults
deriving DecidableEq, Repr

def ZAI_KEY_ERROR : String :=
  "ZAI_API_KEY is required. Pass options.apiKey or set the env var."

/-- The apiKey resolution at the top of `createZaiClaudeCode`:
`options.apiKey ?? process.env.ZAI_API_KEY`, then the truthiness guard
(`!apiKey` is true for both `undefined` and the empty string). -/
def resolveCredentials (explicitKey ambientKey : Option String) : Except String String :=
  let apiKey :=
    match explicitKey with
    | some k => some k
    | none => ambientKey
  match apiKey with
  | none => Except.error ZAI_KEY_ERROR
  | some k => if k = "" then Except.error ZAI_KEY_ERROR else Except.ok k

def userDefaultsOf (o : CreateZaiClaudeCodeOptions) : UserDefaults :=
  o.defaultSettings.getD ⟨none, none, none, none, none⟩

def ctoOf (o : CreateZaiClaudeCodeOptions) : NormalizedCustomToolsOnlyOptions :=
  normalizeCustomToolsOnlyOptions o.customToolsOnly

/-- `includeDefaultTools` after the `customToolsOnly.enabled` overwrite. -/
def effIncludeDefaultTools (o : CreateZaiClaudeCodeOptions) : Bool :=
  if (ctoOf o).enabled then false else o.includeDefaultAllowedTools.getD true

def effEnableWebSearch (o : CreateZaiClaudeCodeOptions) : Bool :=
  if (ctoOf o).enabled then false else o.enableWebSearchMcp.getD true

def effEnableWebReader (o : CreateZaiClaudeCodeOptions) : Bool :=
  if (ctoOf o).enabled then false else o.enableWebReaderMcp.getD true

def effEnableVision (o : CreateZaiClaudeCodeOptions) : Bool :=
  if (ctoOf o).enabled then false else o.enableVisionMcp.getD true

def baselineAllowedTools (o : CreateZaiClaudeCodeOptions) : List String :=
  if (ctoOf o).enabled then (ctoOf o).allowedTools
  else
    (if effIncludeDefaultTools o then CORE_ALLOWED_TOOLS else []) ++
    (if effEnableWebSearch o then WEB_SEARCH_ALLOWED_TOOLS else []) ++
    (if effEnableWebReader o then WEB_READER_ALLOWED_TOOLS else []) ++
    (if effEnableVision o then VISION_ALLOWED_TOOLS else [])

def resolvedAllowedTools (o : CreateZaiClaudeCodeOptions) : Option (List String) :=
  mergeAllowedTools (baselineAllowedTools o) (userDefaultsOf o).allowedTools

/-- `customToolsOnly.enabled ? !allowedTools?.length : true`. -/
def shouldApplyDisallowed (o : CreateZaiClaudeCodeOptions) : Bool :=
  if (ctoOf o).enabled then
    match resolvedAllowedTools o with
    | none => true
    | some l => l.isEmpty
  else true

def resolvedDisallowedTools (o : CreateZaiClaudeCodeOptions) : Option (List String) :=
  if shouldApplyDisallowed o then
    mergeStringLists (if (ctoOf o).enabled then (ctoOf o).disallowedTools else [])
      (userDefaultsOf o).disallowedTools
  else none

/-- C5 counterexample: an explicit key that is present but empty is selected
by the nullish-coalescing step and then fails the truthiness guard, so
resolution errors instead of falling back to the present ambient key. -/
theorem resolveCredentials_empty_explicit_counterexample :
    resolveCredentials (some "") (some "env-key") = Except.error ZAI_KEY_ERROR ∧
    resolveCredentials (some "") (some "env-key") ≠ Except.ok "env-key" := by
  refine ⟨rfl, ?_⟩
  intro h
  rw [show resolveCredentials (some "") (some "env-key") = Except.error ZAI_KEY_ERROR from rfl]
    at h
  exact Except.noConfusion h

/-- C5 (amended): the explicit key wins whenever it is present and non-empty;
the ambient key is used only when the explicit key is absent (not when it is
present but empty) and is itself non-empty; resolution fails with the
missing-credential error exactly when the explicit key is present but empty,
or absent while the ambient key is absent or empty. -/
theorem resolveCredentials_spec (e a : Option String) :
    (∀ k, e = some k → k ≠ "" → resolveCredentials e a = Except.ok k) ∧
    (e = none → ∀ k, a = some k → k ≠ "" → resolveCredentials e a = Except.ok k) ∧
    (resolveCredentials e a = Except.error ZAI_KEY_ERROR ↔
      e = some "" ∨ (e = none ∧ (a = none ∨ a = some ""))) := by
  rcases e with _ | k
  · rcases a with _ | k'
    · exact ⟨by simp, by simp, by simp [resolveCredentials]⟩
    · by_cases hk : k' = ""
      · subst hk
        exact ⟨by simp, by simp [resolveCredentials], by simp [resolveCredentials]⟩
      · refine ⟨by simp, ?_, ?_⟩
        · rintro - k'' hk'' -
          have : k'' = k' := by
            injection hk'' with h
            exact h.symm
          subst this
          simp [resolveCredentials, hk]
        · simp [resolveCredentials, hk]
  · by_cases hk : k = ""
    · subst hk
      exact ⟨by simp_all [resolveCredentials], by simp, by simp [resolveCredentials]⟩
    · refine ⟨?_, by simp, ?_⟩
      · rintro k' hk' -
        have : k' = k := by
          injection hk' with h
          exact h.symm
        subst this
        simp [resolveCredentials, hk]
      · simp [resolveCredentials, hk]

/-- C5 witness: explicit `"override-key"` beats ambient `"env-key"`. -/
theorem resolveCredentials_spec_witness :
    resolveCredentials (some "override-key") (some "env-key") = Except.ok "override-key" :=
  (resolveCredentials_spec (some "override-key") (some "env-key")).1 "override-key" rfl
    (by decide)

/-- Options with the policy inactive and a user-supplied disallowed list. -/
def exOptionsNoCto : CreateZaiClaudeCodeOptions :=
  ⟨some "k", ⟨none, none, none⟩, none, none, none, none, none, .undef,
    some ⟨none, some ["Foo"], none, none, none⟩⟩

/-- C4 counterexample: with the custom-tools-only policy inactive, the
resolved allowlist is non-empty (the built-in groups) while a disallowed
list is still attached from the user defaults, so the two lists are not
mutually exclusive in general. -/
theorem allow_disallow_not_exclusive_counterexample :
    (resolvedAllowedTools exOptionsNoCto).getD [] ≠ [] ∧
    resolvedDisallowedTools exOptionsNoCto = some ["Foo"] := by
  decide

/-- C4 (amended): when the custom-tools-only policy is active, the resolved
allowed-tools and disallowed-tools lists are mutually exclusive: a non-empty
resolved allowlist suppresses the disallowed list entirely. When the policy
is inactive the disallowed list is attached regardless of the allowlist. -/
theorem customToolsOnly_allow_disallow_exclusive (o : CreateZaiClaudeCodeOptions)
    (hen : (ctoOf o).enabled = true) (l : List String)
    (hl : resolvedAllowedTools o = some l) (hne : l ≠ []) :
    resolvedDisallowedTools o = none := by
  have hemp : l.isEmpty = false := by
    rcases l with _ | ⟨x, xs⟩
    · exact absurd rfl hne
    · rfl
  simp [resolvedDisallowedTools, shouldApplyDisallowed, hen, hl, hemp]

/-- Options with the policy active and a non-empty policy allowlist. -/
def exOptionsCtoAllow : CreateZaiClaudeCodeOptions :=
  ⟨some "k", ⟨none, none, none⟩, none, none, none, none, none,
    .opts ⟨none, none, some ["CustomTool"], none⟩, none⟩

/-- C4 witness: a concrete active policy with allowlist `["CustomTool"]`
resolves with no disallowed list attached. -/
theorem customToolsOnly_allow_disallow_exclusive_witness :
    resolvedDisallowedTools exOptionsCtoAllow = none :=
  customToolsOnly_allow_disallow_exclusive exOptionsCtoAllow (by decide) ["CustomTool"]
    (by decide) (by decide)

/-- The `disallowedTools` field of the raw policy options, when supplied. -/
def policyExtraDisallowedTools : CustomToolsOnlyInput → Option (List String)
  | .opts o => o.disallowedTools
  | _ => none

/-- Options with an active policy (empty allowlist, extra blocked name
`"Read"`) and user defaults that also carry a disallowed list. -/
def exOptionsC6 : CreateZaiClaudeCodeOptions :=
  ⟨some "k", ⟨none, none, none⟩, none, none, none, none, none,
    .opts ⟨none, none, none, some ["Read"]⟩,
    some ⟨none, some ["X"], none, none, none⟩⟩

/-- C6 counterexample: with an empty resolved allowlist, the attached
disallowed list also merges the user defaults' disallowed entries, so it
does not equal the always-blocked pair merged with the policy extras alone. -/
theorem customToolsOnly_disallowed_includes_user_defaults_counterexample :
    resolvedAllowedTools exOptionsC6 = none ∧
    resolvedDisallowedTools exOptionsC6 = some ["Bash(*)", "Task(*)", "Read", "X"] ∧
    mergeStringLists DEFAULT_CUSTOM_TOOLS_DISALLOWED (some ["Read"])
      = some ["Bash(*)", "Task(*)", "Read"] ∧
    resolvedDisallowedTools exOptionsC6
      ≠ mergeStringLists DEFAULT_CUSTOM_TOOLS_DISALLOWED (some ["Read"]) := by
  decide

/-- C6 (amended): when the custom-tools-only policy is active, the resolved
allowlist is the policy allowlist merged with the defaults' allowlist; the
normalized policy disallowed list is the fixed always-blocked pair merged
with the policy-supplied extras; and when the resolved allowlist is empty,
the attached disallowed list is that policy list further merged with the
defaults' disallowed list, with no element appearing twice. -/
theorem customToolsOnly_disallowed_composition (o : CreateZaiClaudeCodeOptions)
    (hen : (ctoOf o).enabled = true) :
    resolvedAllowedTools o
      = mergeAllowedTools (ctoOf o).allowedTools (userDefaultsOf o).allowedTools ∧
    (ctoOf o).disallowedTools
      = (mergeStringLists DEFAULT_CUSTOM_TOOLS_DISALLOWED
          (policyExtraDisallowedTools o.customToolsOnly)).getD [] ∧
    ((resolvedAllowedTools o).getD [] = [] →
      resolvedDisallowedTools o
        = mergeStringLists (ctoOf o).disallowedTools (userDefaultsOf o).disallowedTools ∧
      ∀ l, resolvedDisallowedTools o = some l → l.Nodup) := by
  refine ⟨?_, ?_, ?_⟩
  · simp [resolvedAllowedTools, baselineAllowedTools, hen]
  · rcases hc : o.customToolsOnly with _ | b | oo
    · simp [ctoOf, normalizeCustomToolsOnlyOptions, hc] at hen
    · rcases b with _ | _
      · simp [ctoOf, normalizeCustomToolsOnlyOptions, hc] at hen
      · simp [ctoOf, normalizeCustomToolsOnlyOptions, hc, policyExtraDisallowedTools]
    · simp [ctoOf, normalizeCustomToolsOnlyOptions, hc, policyExtraDisallowedTools]
  · intro hempty
    have happly : shouldApplyDisallowed o = true := by
      rcases hres : resolvedAllowedTools o with _ | l
      · simp [shouldApplyDisallowed, hen, hres]
      · rw [hres] at hempty
        simp only [Option.getD_some] at hempty
        simp [shouldApplyDisallowed, hen, hres, hempty]
    have heq : resolvedDisallowedTools o
        = mergeStringLists (ctoOf o).disallowedTools (userDefaultsOf o).disallowedTools := by
      simp [resolvedDisallowedTools, happly, hen]
    refine ⟨heq, ?_⟩
    intro l hl
    rw [heq] at hl
    have hpair : DEFAULT_CUSTOM_TOOLS_DISALLOWED.Nodup := by decide
    have hbase : (ctoOf o).disallowedTools.Nodup := by
      rcases hc : o.customToolsOnly with _ | b | oo
      · simp [ctoOf, normalizeCustomToolsOnlyOptions, hc] at hen
      · rcases b with _ | _
        · simp [ctoOf, normalizeCustomToolsOnlyOptions, hc] at hen
        · simpa [ctoOf, normalizeCustomToolsOnlyOptions, hc] using
            mergeStringLists_getD_nodup DEFAULT_CUSTOM_TOOLS_DISALLOWED hpair none
      · simpa [ctoOf, normalizeCustomToolsOnlyOptions, hc] using
          mergeStringLists_getD_nodup DEFAULT_CUSTOM_TOOLS_DISALLOWED hpair oo.disallowedTools
    exact mergeStringLists_nodup (ctoOf o).disallowedTools hbase
      (userDefaultsOf o).disallowedTools l hl

/-- Options matching the spec scenario: active policy with empty allowlist
and extra blocked name `"Read"`, defaults with no lists. -/
def exOptionsC6W : CreateZaiClaudeCodeOptions :=
  ⟨some "k", ⟨none, none, none⟩, none, none, none, none, none,
    .opts ⟨none, none, none, some ["Read"]⟩, none⟩

/-- C6 witness: in the spec's scenario the attached disallowed list is the
merge of the normalized policy list with the (absent) defaults list, and any
attached list has no duplicates. -/
theorem customToolsOnly_disallowed_composition_witness :
    resolvedDisallowedTools exOptionsC6W
      = mergeStringLists (ctoOf exOptionsC6W).disallowedTools
          (userDefaultsOf exOptionsC6W).disallowedTools ∧
    ∀ l, resolvedDisallowedTools exOptionsC6W = some l → l.Nodup :=
  (customToolsOnly_disallowed_composition exOptionsC6W (by decide)).2.2 (by decide)

/-! ## MCP server assembly -/

def WEB_SEARCH_SERVER : String := "https://api.z.ai/api/mcp/web_search_prime/mcp"

def WEB_READER_SERVER : String := "https://api.z.ai/api/mcp/web_reader/mcp"

/-- The JavaScript object spread `{ ...base, ...user }` on string-keyed
records rendered as association lists: base keys keep their position but
take the user's value when the user also has the key; user-only keys follow
in the user's order. -/
def objAssign {α : Type} (base user : List (String × α)) : List (String × α) :=
  base.map (fun e =>
    match user.find? (fun uEntry => uEntry.1 == e.1) with
    | some uEntry => (e.1, uEntry.2)
    | none => e) ++
  user.filter (fun uEntry => (base.find? (fun e => e.1 == uEntry.1)).isNone)

def lookupKey {α : Type} (k : String) (l : List (String × α)) : Option α :=
  (l.find? (fun e => e.1 == k)).map Prod.snd

/-- The `zai-vision` stdio descriptor: command/args from the override or the
npx default, env = the two generated entries overlaid with the override's. -/
def visionDescriptor (apiKey : String) (visionCommand : Option VisionCommand) :
    McpServerDescriptor :=
  let cmd := visionCommand.getD ⟨"npx", some ["-y", "@z_ai/mcp-server"], none⟩
  McpServerDescriptor.stdio cmd.command (cmd.args.getD ["-y", "@z_ai/mcp-server"])
    (objAssign [("Z_AI_API_KEY", some apiKey), ("Z_AI_MODE", some "ZAI")] (cmd.env.getD []))

/-- The `defaults` record built inside `mergeMcpServers`: one entry per
enabled capability, in declaration order. -/
def builtinMcpDefaults (apiKey : String)
    (enableWebSearch enableWebReader enableVision : Bool)
    (visionCommand : Option VisionCommand) : List (String × McpServerDescriptor) :=
  (if enableWebSearch then
    [("web-search-prime", McpServerDescriptor.http WEB_SEARCH_SERVER ("Bearer " ++ apiKey))]
   else []) ++
  (if enableWebReader then
    [("web-reader", McpServerDescriptor.http WEB_READER_SERVER ("Bearer " ++ apiKey))]
   else []) ++
  (if enableVision then [("zai-vision", visionDescriptor apiKey visionCommand)] else [])

/-- `mergeMcpServers`: overlay any user mapping wholesale, otherwise return
the built-ins, or `undefined` when they are empty. -/
def mergeMcpServers (apiKey : String) (enableWebSearch enableWebReader enableVision : Bool)
    (userMcpServers : Option (List (String × McpServerDescriptor)))
    (visionCommand : Option VisionCommand) : Option (List (String × McpServerDescriptor)) :=
  let defaults :=
    builtinMcpDefaults apiKey enableWebSearch enableWebReader enableVision visionCommand
  match userMcpServers with
  | some user => some (objAssign defaults user)
  | none => if defaults.isEmpty then none else some defaults

/-- The built-ins as assembled by `createZaiClaudeCode` for given options. -/
def resolvedBuiltinMcpDefaults (o : CreateZaiClaudeCodeOptions) (apiKey : String) :
    List (String × McpServerDescriptor) :=
  builtinMcpDefaults apiKey (effEnableWebSearch o) (effEnableWebReader o) (effEnableVision o)
    o.visionCommand

/-- The `mcpServers` field of the resolved settings. -/
def resolvedMcpServers (o : CreateZaiClaudeCodeOptions) (apiKey : String) :
    Option (List (String × McpServerDescriptor)) :=
  mergeMcpServers apiKey (effEnableWebSearch o) (effEnableWebReader o) (effEnableVision o)
    (userDefaultsOf o).mcpServers o.visionCommand

theorem find?_filter_some {α : Type} (l : List α) (p q : α → Bool) (u : α)
    (hfind : l.find? p = some u) (hq : q u = true) : (l.filter q).find? p = some u := by
  induction l with
  | nil => simp at hfind
  | cons x xs ih =>
    cases hp : p x with
    | true =>
      have hxu : x = u := by simp [List.find?_cons, hp] at hfind; exact hfind
      subst hxu
      simp [List.filter_cons, hq, List.find?_cons, hp]
    | false =>
      simp only [List.find?_cons, hp] at hfind
      cases hqx : q x with
      | true =>
        simp only [List.filter_cons, hqx, if_true, List.find?_cons, hp]
        exact ih hfind
      | false =>
        simp only [List.filter_cons, hqx, Bool.false_eq_true, if_false]
        exact ih hfind

theorem find?_filter_none {α : Type} (l : List α) (p q : α → Bool)
    (hfind : l.find? p = none) : (l.filter q).find? p = none := by
  rw [List.find?_eq_none] at hfind ⊢
  intro x hx
  exact hfind x (List.mem_of_mem_filter hx)

/-- Overlay semantics of `objAssign` observed through key lookup: a key the
user mapping carries resolves to the user's (first) value wholesale, any
other key resolves as in the base mapping. -/
theorem lookupKey_objAssign {α : Type} (base user : List (String × α)) (k : String) :
    lookupKey k (objAssign base user) =
      match user.find? (fun uEntry => uEntry.1 == k) with
      | some uEntry => some uEntry.2
      | none => lookupKey k base := by
  have hcomp : ((fun (e : String × α) => e.1 == k) ∘
      (fun e =>
        match user.find? (fun uEntry => uEntry.1 == e.1) with
        | some uEntry => (e.1, uEntry.2)
        | none => e)) = fun e => e.1 == k := by
    funext e
    rcases hu : user.find? (fun uEntry => uEntry.1 == e.1) with _ | u <;>
      simp [Function.comp, hu]
  unfold lookupKey objAssign
  rw [List.find?_append, List.find?_map, hcomp]
  rcases hbase : base.find? (fun e => e.1 == k) with _ | b <;>
    rcases huser : user.find? (fun uEntry => uEntry.1 == k) with _ | u
  · rw [hbase, huser, find?_filter_none user _ _ huser]
    rfl
  · rw [hbase, huser]
    have hpu := List.find?_some huser
    simp only [beq_iff_eq] at hpu
    have hu1 : u.1 = k := hpu
    have hq : ((base.find? (fun e => e.1 == u.1)).isNone) = true := by
      rw [hu1, hbase]
      rfl
    rw [find?_filter_some user _ _ u huser hq]
    rfl
  · rw [hbase, huser]
    have hpb := List.find?_some hbase
    simp only [beq_iff_eq] at hpb
    have hb1 : b.1 = k := hpb
    have hfind : user.find? (fun uEntry => uEntry.1 == b.1) = none := by
      rw [hb1]
      exact huser
    simp [hfind, hbase]
  · rw [hbase, huser]
    have hpb := List.find?_some hbase
    simp only [beq_iff_eq] at hpb
    have hb1 : b.1 = k := hpb
    have hfind : user.find? (fun uEntry => uEntry.1 == b.1) = some u := by
      rw [hb1]
      exact huser
    simp [hfind]

theorem builtin_lookup_webSearch (apiKey : String) (ws wr v : Bool)
    (vc : Option VisionCommand) :
    lookupKey "web-search-prime" (builtinMcpDefaults apiKey ws wr v vc)
      = if ws then
          some (McpServerDescriptor.http WEB_SEARCH_SERVER ("Bearer " ++ apiKey))
        else none := by
  cases ws <;> cases wr <;> cases v <;>
    simp [builtinMcpDefaults, lookupKey, List.find?_cons]

theorem builtin_lookup_webReader (apiKey : String) (ws wr v : Bool)
    (vc : Option VisionCommand) :
    lookupKey "web-reader" (builtinMcpDefaults apiKey ws wr v vc)
      = if wr then
          some (McpServerDescriptor.http WEB_READER_SERVER ("Bearer " ++ apiKey))
        else none := by
  cases ws <;> cases wr <;> cases v <;>
    simp [builtinMcpDefaults, lookupKey, List.find?_cons]

theorem builtin_lookup_vision (apiKey : String) (ws wr v : Bool)
    (vc : Option VisionCommand) :
    lookupKey "zai-vision" (builtinMcpDefaults apiKey ws wr v vc)
      = if v then some (visionDescriptor apiKey vc) else none := by
  cases ws <;> cases wr <;> cases v <;>
    simp [builtinMcpDefaults, lookupKey, List.find?_cons]

theorem builtinMcpDefaults_isEmpty (apiKey : String) (ws wr v : Bool)
    (vc : Option VisionCommand) :
    (builtinMcpDefaults apiKey ws wr v vc).isEmpty = (!ws && !wr && !v) := by
  cases ws <;> cases wr <;> cases v <;> simp [builtinMcpDefaults]

/-- C7: the built-in part of the `mcpServers` mapping carries each
capability's descriptor exactly when that capability's effective flag is on,
and each effective flag is the user's enable flag (default true) conjoined
with the custom-tools-only policy being inactive; a user-supplied mapping is
overlaid wholesale, user entries replacing same-keyed built-ins entirely;
and with no user mapping the result is `none` exactly when no capability is
enabled. -/
theorem mergeMcpServers_spec (o : CreateZaiClaudeCodeOptions) (apiKey : String) :
    (lookupKey "web-search-prime" (resolvedBuiltinMcpDefaults o apiKey)
      = if effEnableWebSearch o then
          some (McpServerDescriptor.http WEB_SEARCH_SERVER ("Bearer " ++ apiKey))
        else none) ∧
    (lookupKey "web-reader" (resolvedBuiltinMcpDefaults o apiKey)
      = if effEnableWebReader o then
          some (McpServerDescriptor.http WEB_READER_SERVER ("Bearer " ++ apiKey))
        else none) ∧
    (lookupKey "zai-vision" (resolvedBuiltinMcpDefaults o apiKey)
      = if effEnableVision o then some (visionDescriptor apiKey o.visionCommand) else none) ∧
    (effEnableWebSearch o = (!(ctoOf o).enabled && o.enableWebSearchMcp.getD true)) ∧
    (effEnableWebReader o = (!(ctoOf o).enabled && o.enableWebReaderMcp.getD true)) ∧
    (effEnableVision o = (!(ctoOf o).enabled && o.enableVisionMcp.getD true)) ∧
    (∀ user, (userDefaultsOf o).mcpServers = some user →
      resolvedMcpServers o apiKey = some (objAssign (resolvedBuiltinMcpDefaults o apiKey) user) ∧
      (∀ k v, user.find? (fun uEntry => uEntry.1 == k) = some v →
        lookupKey k (objAssign (resolvedBuiltinMcpDefaults o apiKey) user) = some v.2) ∧
      (∀ k, user.find? (fun uEntry => uEntry.1 == k) = none →
        lookupKey k (objAssign (resolvedBuiltinMcpDefaults o apiKey) user)
          = lookupKey k (resolvedBuiltinMcpDefaults o apiKey))) ∧
    ((userDefaultsOf o).mcpServers = none →
      (resolvedMcpServers o apiKey = none ↔
        (effEnableWebSearch o = false ∧ effEnableWebReader o = false ∧
          effEnableVision o = false))) := by
  refine ⟨builtin_lookup_webSearch apiKey _ _ _ _, builtin_lookup_webReader apiKey _ _ _ _,
    builtin_lookup_vision apiKey _ _ _ _, ?_, ?_, ?_, ?_, ?_⟩
  · cases h : (ctoOf o).enabled <;> simp [effEnableWebSearch, h]
  · cases h : (ctoOf o).enabled <;> simp [effEnableWebReader, h]
  · cases h : (ctoOf o).enabled <;> simp [effEnableVision, h]
  · intro user huser
    refine ⟨?_, ?_, ?_⟩
    · simp [resolvedMcpServers, mergeMcpServers, huser, resolvedBuiltinMcpDefaults]
    · intro k v hv
      rw [lookupKey_objAssign (resolvedBuiltinMcpDefaults o apiKey) user k, hv]
    · intro k hk
      rw [lookupKey_objAssign (resolvedBuiltinMcpDefaults o apiKey) user k, hk]
  · intro huser
    have hres : resolvedMcpServers o apiKey
        = if (resolvedBuiltinMcpDefaults o apiKey).isEmpty then none
          else some (resolvedBuiltinMcpDefaults o apiKey) := by
      simp [resolvedMcpServers, mergeMcpServers, huser, resolvedBuiltinMcpDefaults]
    have hif : ((if (resolvedBuiltinMcpDefaults o apiKey).isEmpty then none
          else some (resolvedBuiltinMcpDefaults o apiKey))
          = (none : Option (List (String × McpServerDescriptor)))) ↔
        (resolvedBuiltinMcpDefaults o apiKey).isEmpty = true := by
      by_cases h : (resolvedBuiltinMcpDefaults o apiKey).isEmpty <;> simp [h]
    have hemp : (resolvedBuiltinMcpDefaults o apiKey).isEmpty
        = (!effEnableWebSearch o && !effEnableWebReader o && !effEnableVision o) :=
      builtinMcpDefaults_isEmpty apiKey (effEnableWebSearch o) (effEnableWebReader o)
        (effEnableVision o) o.visionCommand
    rw [hres, hif, hemp]
    cases h1 : effEnableWebSearch o <;> cases h2 : effEnableWebReader o <;>
      cases h3 : effEnableVision o <;> simp

/-- A user MCP mapping overriding the built-in web-search entry. -/
def exUserMcp : List (String × McpServerDescriptor) :=
  [("web-search-prime", McpServerDescriptor.http "https://example.invalid/mcp" "Bearer u")]

def exOptionsC7 : CreateZaiClaudeCodeOptions :=
  ⟨some "k", ⟨none, none, none⟩, none, none, none, none, none, .undef,
    some ⟨none, none, none, none, some exUserMcp⟩⟩

/-- C7 witness: with a concrete user mapping supplied, the resolved mapping
is the built-ins overlaid wholesale with the user entries. -/
theorem mergeMcpServers_spec_witness :
    resolvedMcpServers exOptionsC7 "k"
      = some (objAssign (resolvedBuiltinMcpDefaults exOptionsC7 "k") exUserMcp) :=
  (((mergeMcpServers_spec exOptionsC7 "k").2.2.2.2.2.2.1) exUserMcp rfl).1

/-! ## Provider wrapping -/

/-- The entry points of a `ClaudeCodeProvider`, observed through the value
the underlying factory returns for the identifier it was invoked with. -/
structure Provider (α : Type) where
  call : String → α
  languageModel : String → α
  chat : String → α
  imageModel : String → α
  textEmbeddingModel : String → α

/-- `wrapProviderWithModelResolution`: the callable form, `languageModel` and
`chat` rewrite the identifier through `resolveModelId` before delegating;
`imageModel` and `textEmbeddingModel` are bound to the base provider
directly. -/
def wrapProviderWithModelResolution {α : Type} (base : Provider α) (mappings : ModelMappings) :
    Provider (Except String α) :=
  ⟨fun modelId => (resolveModelId modelId mappings).map fun a => base.call (aliasName a),
   fun modelId => (resolveModelId modelId mappings).map fun a => base.languageModel (aliasName a),
   fun modelId => (resolveModelId modelId mappings).map fun a => base.chat (aliasName a),
   fun modelId => Except.ok (base.imageModel modelId),
   fun modelId => Except.ok (base.textEmbeddingModel modelId)⟩

/-- A base provider that reports the identifier it was invoked with. -/
def recordingProvider : Provider String :=
  ⟨fun s => s, fun s => s, fun s => s, fun s => s, fun s => s⟩

/-- C9 counterexample: `"glm-4.5-air"` resolves to the `haiku` alias, yet the
wrapped provider's `imageModel` entry point hands the underlying provider the
raw identifier `"glm-4.5-air"`, not the resolved one. -/
theorem wrapProvider_imageModel_raw_id_counterexample :
    resolveModelId "glm-4.5-air" DEFAULT_MODEL_MAPPINGS = Except.ok ClaudeModelAlias.haiku ∧
    (wrapProviderWithModelResolution recordingProvider DEFAULT_MODEL_MAPPINGS).imageModel
        "glm-4.5-air" = Except.ok "glm-4.5-air" ∧
    "glm-4.5-air" ≠ aliasName ClaudeModelAlias.haiku := by
  exact ⟨rfl, rfl, by decide⟩

/-- C9 (amended): the wrapped provider's callable form, `languageModel` and
`chat` invoke the underlying provider with the resolved (post-alias-mapping)
identifier, and propagate the resolution error otherwise; `imageModel` and
`textEmbeddingModel` delegate directly with the raw identifier unchanged. -/
theorem wrapProvider_resolution_spec {α : Type} (base : Provider α) (m : ModelMappings)
    (id : String) :
    (∀ a, resolveModelId id m = Except.ok a →
      (wrapProviderWithModelResolution base m).call id
          = Except.ok (base.call (aliasName a)) ∧
      (wrapProviderWithModelResolution base m).languageModel id
          = Except.ok (base.languageModel (aliasName a)) ∧
      (wrapProviderWithModelResolution base m).chat id
          = Except.ok (base.chat (aliasName a))) ∧
    (∀ e, resolveModelId id m = Except.error e →
      (wrapProviderWithModelResolution base m).call id = Except.error e ∧
      (wrapProviderWithModelResolution base m).languageModel id = Except.error e ∧
      (wrapProviderWithModelResolution base m).chat id = Except.error e) ∧
    (wrapProviderWithModelResolution base m).imageModel id
        = Except.ok (base.imageModel id) ∧
    (wrapProviderWithModelResolution base m).textEmbeddingModel id
        = Except.ok (base.textEmbeddingModel id) := by
  refine ⟨?_, ?_, rfl, rfl⟩
  · intro a ha
    refine ⟨?_, ?_, ?_⟩ <;> simp only [wrapProviderWithModelResolution, ha] <;> rfl
  · intro e he
    refine ⟨?_, ?_, ?_⟩ <;> simp only [wrapProviderWithModelResolution, he] <;> rfl

/-- C9 witness: the wrapped callable form at `"glm-4.6"` invokes the base
with the resolved alias name `"sonnet"`. -/
theorem wrapProvider_resolution_spec_witness :
    (wrapProviderWithModelResolution recordingProvider DEFAULT_MODEL_MAPPINGS).call "glm-4.6"
      = Except.ok (recordingProvider.call (aliasName ClaudeModelAlias.sonnet)) :=
  ((wrapProvider_resolution_spec recordingProvider DEFAULT_MODEL_MAPPINGS "glm-4.6").1
    ClaudeModelAlias.sonnet rfl).1

/-! ## Forced custom-tool invocation -/

def DEFAULT_CUSTOM_TOOLS_SYSTEM_PROMPT : String :=
  "You are running inside the Claude Code CLI with only custom developer-provided tools available. NEVER call Bash, Task, Shell, or any CLI tool; those calls will fail. Only use the explicitly provided tools and wait for a user tool_result before responding."

def DEFAULT_ACKNOWLEDGEMENT : String :=
  "Tool call completed. Use the result above verbatim and do not attempt to call CLI tools."

def toolNotFoundMessage (toolName : String) : String :=
  "Tool \"" ++ toolName ++ "\" is not defined or missing an execute handler."

/-- A content block of a synthetic assistant turn. -/
inductive ContentBlock (I O : Type)
  | toolCall (toolName : String) (args : I)
  | toolResult (toolName : String) (result : O)
  | text (content : String)

/-- A core message as `forceCustomTools` manipulates it. -/
inductive CoreMessage (I O : Type)
  | system (content : String)
  | user (content : String)
  | assistant (blocks : List (ContentBlock I O))

/-- A tool whose `execute` handler may be absent (not a function). -/
structure Tool (I O : Type) where
  execute : Option (I → O)

/-- The arguments `forceCustomTools` hands the streaming completion engine. -/
structure StreamTextCall (I O : Type) where
  toolChoiceName : String
  messages : List (CoreMessage I O)

/-- The observable outcome of `forceCustomTools`: the sequence of manual tool
invocations it performed and the delegated streaming call. -/
structure ForceCustomToolsResult (I O : Type) where
  executed : List (String × I)
  streamCall : StreamTextCall I O

/-- `forceCustomTools`: look the tool up, fail before any external call when
it is absent or lacks an executable handler; otherwise invoke the handler
once on the input, build the synthetic assistant turn (tool-call block,
tool-result block, then a text block unless the effective acknowledgement is
empty), prepend the guardrail system message, append the turn to the
history, and delegate with `toolChoice` pinned to the tool name. -/
def forceCustomTools {I O : Type} (tools : String → Option (Tool I O)) (toolName : String)
    (toolInput : I) (messages : List (CoreMessage I O)) (acknowledgement : Option String)
    (systemPrompt : Option String) : Except String (ForceCustomToolsResult I O) :=
  let ack := acknowledgement.getD DEFAULT_ACKNOWLEDGEMENT
  match tools toolName with
  | none => Except.error (toolNotFoundMessage toolName)
  | some tool =>
    match tool.execute with
    | none => Except.error (toolNotFoundMessage toolName)
    | some ex =>
      let manualResult := ex toolInput
      let manualBlocks : List (ContentBlock I O) :=
        [ContentBlock.toolCall toolName toolInput,
         ContentBlock.toolResult toolName manualResult] ++
        (if ack = "" then [] else [ContentBlock.text ack])
      let augmented :=
        CoreMessage.system (systemPrompt.getD DEFAULT_CUSTOM_TOOLS_SYSTEM_PROMPT) ::
          messages ++ [CoreMessage.assistant manualBlocks]
      Except.ok ⟨[(toolName, toolInput)], ⟨toolName, augmented⟩⟩

/-- C10: `forceCustomTools` fails (before invoking anything or delegating)
exactly when the named tool is absent or lacks an executable handler, always
with the tool-not-found message; on success it invoked the tool's handler
exactly once on the given input, pinned `toolChoice` to that tool name, and
delegated with the history extended by a synthetic assistant turn holding the
tool-call block, the tool-result block of that single invocation, and a text
block for the (defaulted) acknowledgement unless it is empty, after the
guardrail system message. -/
theorem forceCustomTools_spec {I O : Type} (tools : String → Option (Tool I O))
    (toolName : String) (toolInput : I) (messages : List (CoreMessage I O))
    (acknowledgement : Option String) (systemPrompt : Option String) :
    ((∃ e, forceCustomTools tools toolName toolInput messages acknowledgement systemPrompt
        = Except.error e) ↔
      (tools toolName = none ∨ ∃ t, tools toolName = some t ∧ t.execute = none)) ∧
    (∀ e, forceCustomTools tools toolName toolInput messages acknowledgement systemPrompt
        = Except.error e → e = toolNotFoundMessage toolName) ∧
    (∀ r, forceCustomTools tools toolName toolInput messages acknowledgement systemPrompt
        = Except.ok r →
      ∃ ex : I → O, tools toolName = some ⟨some ex⟩ ∧
        r.executed = [(toolName, toolInput)] ∧
        r.streamCall.toolChoiceName = toolName ∧
        r.streamCall.messages
          = CoreMessage.system (systemPrompt.getD DEFAULT_CUSTOM_TOOLS_SYSTEM_PROMPT) ::
            messages ++
            [CoreMessage.assistant
              ([ContentBlock.toolCall toolName toolInput,
                ContentBlock.toolResult toolName (ex toolInput)] ++
               (if acknowledgement.getD DEFAULT_ACKNOWLEDGEMENT = "" then []
                else
                  [ContentBlock.text (acknowledgement.getD DEFAULT_ACKNOWLEDGEMENT)]))]) := by
  rcases ht : tools toolName with _ | t
  · refine ⟨?_, ?_, ?_⟩
    · simp [forceCustomTools, ht]
    · intro e he
      simp [forceCustomTools, ht] at he
      exact he.symm
    · intro r hr
      simp [forceCustomTools, ht] at hr
  · rcases hex : t.execute with _ | ex
    · refine ⟨⟨fun _ => Or.inr ⟨t, rfl, hex⟩,
        fun _ => ⟨toolNotFoundMessage toolName, by simp [forceCustomTools, ht, hex]⟩⟩, ?_, ?_⟩
      · intro e he
        simp [forceCustomTools, ht, hex] at he
        exact he.symm
      · intro r hr
        simp [forceCustomTools, ht, hex] at hr
    · refine ⟨⟨?_, ?_⟩, ?_, ?_⟩
      · rintro ⟨e, he⟩
        simp [forceCustomTools, ht, hex] at he
      · rintro (h | ⟨t', ht', hex'⟩)
        · exact absurd h (by simp)
        · have htt : t = t' := by injection ht'
          rw [← htt] at hex'
          rw [hex] at hex'
          exact absurd hex' (by simp)
      · intro e he
        simp [forceCustomTools, ht, hex] at he
      · intro r hr
        refine ⟨ex, ?_, ?_⟩
        · rcases t with ⟨texec⟩
          simp only at hex
          rw [hex]
        · simp only [forceCustomTools, ht, hex] at hr
          have hr' : r = ⟨[(toolName, toolInput)],
              ⟨toolName,
                CoreMessage.system (systemPrompt.getD DEFAULT_CUSTOM_TOOLS_SYSTEM_PROMPT) ::
                  messages ++
                  [CoreMessage.assistant
                    ([ContentBlock.toolCall toolName toolInput,
                      ContentBlock.toolResult toolName (ex toolInput)] ++
                     (if acknowledgement.getD DEFAULT_ACKNOWLEDGEMENT = "" then []
                      else
                        [ContentBlock.text
                          (acknowledgement.getD DEFAULT_ACKNOWLEDGEMENT)]))]⟩⟩ := by
            injection hr with h
            exact h.symm
          subst hr'
          exact ⟨rfl, rfl, rfl⟩

/-- A concrete tool map with a single executable tool named `"echo"`. -/
def exTools : String → Option (Tool Nat Nat) :=
  fun n => if n = "echo" then some ⟨some (fun x => x + 1)⟩ else none

/-- C10 witness: requesting the absent tool `"missing"` fails. -/
theorem forceCustomTools_spec_witness :
    ∃ e, forceCustomTools exTools "missing" 0 [] none none = Except.error e :=
  (forceCustomTools_spec exTools "missing" 0 [] none none).1.mpr (Or.inl rfl)

end ZaiProvider
